import Mathlib

set_option maxRecDepth 100000

/-!
Verification of the clamav-client protocol layer.

The development shallowly embeds the protocol encoding/decoding layer of the
client (src/client.rs and src/response.rs):

* text is modelled as `List Nat` (Unicode code points of the Rust `&str`;
  all protocol text is ASCII, where code points and bytes agree);
* the chunked streaming upload of `scan_stream`, `scan_bytes` and
  `scan_chunks` is modelled as the transcript of bytes the client writes on
  the connection, with the pull-based byte source given as the list of
  successive successful `read` results;
* fallible parsing returns `Option` or `Except ClamError`; the one
  potentially panicking call (`unwrap` in `ScanResult::parse`) is modelled
  by an `Option` layer, `none` meaning a panic.

Definitions follow the Rust source item by item; the one exception is
`parseClamDate`, which models the external chrono strptime call and is
written from the specified format, as documented there.
-/

/-- Bytes of a string literal: the code points of its characters. All
strings handled here are ASCII, so this agrees with the UTF-8 bytes. -/
def s2b (s : String) : List Nat := s.toList.map Char.toNat

/-- Big-endian 4-byte encoding of a 32-bit value, as written by
`BigEndian::write_u32` and `u32::to_be_bytes`. -/
def be32 (n : Nat) : List Nat := [n / 16777216 % 256, n / 65536 % 256, n / 256 % 256, n % 256]

/-- Does `s` start with `pat`? (Rust `str::starts_with`.) -/
def beginsWith : List Nat → List Nat → Bool
  | [], _ => true
  | _ :: _, [] => false
  | p :: ps, c :: cs => p == c && beginsWith ps cs

/-- Does `s` end with `pat`? (Rust `str::ends_with`.) -/
def endsWith (pat s : List Nat) : Bool := beginsWith pat.reverse s.reverse

/-- Does `s` contain `pat` as a contiguous substring? (Rust `str::contains`.) -/
def containsSub (pat : List Nat) : List Nat → Bool
  | [] => beginsWith pat []
  | c :: rest => beginsWith pat (c :: rest) || containsSub pat rest

/-- Split at the first occurrence of byte `b`: `some (before, after)` when
`b` occurs, `none` otherwise. Helper for `splitNOn`. -/
def breakAt (b : Nat) : List Nat → Option (List Nat × List Nat)
  | [] => none
  | c :: rest =>
    if c == b then some ([], rest)
    else (breakAt b rest).map (fun pr => (c :: pr.1, pr.2))

/-- Rust `str::splitn(n, sep)` for a one-character separator `b`: at most `n`
pieces, the last piece being the unsplit remainder. For `n ≥ 1` the result
is never empty (splitting the empty string yields one empty piece). -/
def splitNOn : Nat → Nat → List Nat → List (List Nat)
  | 0, _, _ => []
  | 1, _, s => [s]
  | n + 2, b, s =>
    match breakAt b s with
    | some pr => pr.1 :: splitNOn (n + 1) b pr.2
    | none => [s]

/-- Rust `str::split(sep)` for a one-character separator: every piece, empty
pieces included. -/
def splitOnByte (b : Nat) : List Nat → List (List Nat)
  | [] => [[]]
  | c :: rest =>
    if c == b then [] :: splitOnByte b rest
    else
      match splitOnByte b rest with
      | [] => [[c]]
      | p :: ps => (c :: p) :: ps

/-- Rust `str::trim_end_matches(c)`: remove every trailing occurrence of the
byte `b`. -/
def dropTrailing (b : Nat) (s : List Nat) : List Nat :=
  (s.reverse.dropWhile (fun c => c == b)).reverse

/-- Unicode white space, as recognised by Rust `char::is_whitespace`. -/
def isWs (c : Nat) : Bool :=
  c == 9 || c == 10 || c == 11 || c == 12 || c == 13 || c == 32 || c == 133 || c == 160 ||
  c == 5760 || (8192 ≤ c && c ≤ 8202) || c == 8232 || c == 8233 || c == 8239 || c == 8287 ||
  c == 12288

/-- Accumulator pass of `splitWhitespace`: `acc` holds the reversed bytes of
the token currently being read. -/
def splitWsAux : List Nat → List Nat → List (List Nat)
  | [], acc => if acc.isEmpty then [] else [acc.reverse]
  | c :: rest, acc =>
    if isWs c then
      if acc.isEmpty then splitWsAux rest [] else acc.reverse :: splitWsAux rest []
    else splitWsAux rest (c :: acc)

/-- Rust `str::split_whitespace`: the maximal non-empty runs of
non-whitespace bytes, in order. -/
def splitWhitespace (s : List Nat) : List (List Nat) := splitWsAux s []

/-- Decomposed malware signature, from `response.rs` (`pub struct
Signature`). String payloads are byte lists. -/
structure Signature where
  platform : Option (List Nat)
  category : Option (List Nat)
  virus : Option (List Nat)
  signum : Option (List Nat)
  sigversion : Option (List Nat)
  raw : List Nat
deriving DecidableEq, Repr

/-- Embedding of `Signature::from` (response.rs lines 24-59): split on the
first `-` (45) into at most 2 pieces, split the first piece on `.` (46)
into at most 3 pieces giving platform, category and virus, split the second
piece (when present) on the first `-` into at most 2 pieces giving signum
and sigversion, and keep the whole input as `raw`. -/
def Signature.parse (s : List Nat) : Signature :=
  let xs := splitNOn 2 45 s
  let sig0 := (xs[0]?).map (fun x => splitNOn 3 46 x)
  let platform := sig0.bind (fun v => v[0]?)
  let category := sig0.bind (fun v => v[1]?)
  let virus := sig0.bind (fun v => v[2]?)
  let sig1 := (xs[1]?).map (fun x => splitNOn 2 45 x)
  let signum := sig1.bind (fun v => v[0]?)
  let sigversion := sig1.bind (fun v => v[1]?)
  ⟨platform, category, virus, signum, sigversion, s⟩

/-- Scan verdicts, from `response.rs` (`pub enum ScanResult`). -/
inductive ScanResult where
  | Ok : ScanResult
  | Found : List Nat → Signature → ScanResult
  | Error : List Nat → ScanResult
deriving DecidableEq, Repr

/-- Classification of one non-empty NUL-delimited segment, the closure body
of `ScanResult::parse` (response.rs lines 74-89). `none` models the panic of
the `unwrap` on the first whitespace token (proved unreachable below). The
`OK` suffix test comes first, then the `FOUND` test: the first whitespace
token with trailing colons removed is the path and the following tokens up
to the first one starting with `FOUND` are concatenated into the raw
signature text. -/
def classify (s : List Nat) : Option ScanResult :=
  if endsWith (s2b "OK") s then some ScanResult.Ok
  else if containsSub (s2b "FOUND") s then
    match splitWhitespace s with
    | [] => none
    | path :: rest =>
      some (ScanResult.Found (dropTrailing 58 path)
        (Signature.parse ((rest.takeWhile (fun t => !beginsWith (s2b "FOUND") t)).flatten)))
  else some (ScanResult.Error s)

/-- The NUL-delimited segments of a response that survive the
`filter(|s| s != &"")` of `ScanResult::parse`. -/
def nonEmptySegments (s : List Nat) : List (List Nat) :=
  (splitOnByte 0 s).filter (fun seg => !seg.isEmpty)

/-- Classify every segment, propagating the potential panic. -/
def classifyAll : List (List Nat) → Option (List ScanResult)
  | [] => some []
  | seg :: rest =>
    match classify seg, classifyAll rest with
    | some r, some rs => some (r :: rs)
    | _, _ => none

/-- Embedding of `ScanResult::parse` (response.rs lines 70-92): split on NUL,
drop empty segments, classify each remaining segment in order. -/
def ScanResult.parse (s : List Nat) : Option (List ScanResult) :=
  classifyAll (nonEmptySegments s)

/-- Error kinds, from `error.rs` (`pub enum ClamError`). The wrapped
`std::io::Error` and chrono/int parse-error payloads carry no information
used by the protocol layer and are dropped; `InvalidData` keeps the
offending raw text and `InvalidDataLength` the offending length, as in the
source. -/
inductive ClamError where
  | InvalidIpAddress : ClamError
  | ConnectionError : ClamError
  | CommandError : ClamError
  | InvalidData : List Nat → ClamError
  | InvalidDataLength : Nat → ClamError
  | DateParseError : ClamError
  | IntParseError : ClamError
deriving DecidableEq, Repr

instance {ε α : Type} [DecidableEq ε] [DecidableEq α] : DecidableEq (Except ε α) :=
  fun a b =>
    match a, b with
    | .ok x, .ok y =>
      if h : x = y then .isTrue (h ▸ rfl) else .isFalse (fun hh => h (Except.ok.inj hh))
    | .error x, .error y =>
      if h : x = y then .isTrue (h ▸ rfl) else .isFalse (fun hh => h (Except.error.inj hh))
    | .ok _, .error _ => .isFalse (fun hh => Except.noConfusion hh)
    | .error _, .ok _ => .isFalse (fun hh => Except.noConfusion hh)

/-- Is `c` an ASCII digit? -/
def isDigit (c : Nat) : Bool := decide (48 ≤ c) && decide (c ≤ 57)

/-- Decimal value of a digit string. -/
def digitsVal (ds : List Nat) : Nat := ds.foldl (fun a c => a * 10 + (c - 48)) 0

/-- Embedding of `u64::from_str` as used on `&str` fields: an optional
leading `+`, then one or more ASCII digits, value below 2^64. -/
def parseU64 (s : List Nat) : Option Nat :=
  let ds := if s.head? == some 43 then s.tail else s
  if ds.isEmpty then none
  else if ds.all isDigit then
    let v := digitsVal ds
    if v < 18446744073709551616 then some v else none
  else none

/-- Read one to `k` digits greedily; `none` when the input does not start
with a digit. -/
def readDigitsUpTo (k : Nat) (s : List Nat) : Option (Nat × List Nat) :=
  let ds := (s.takeWhile isDigit).take k
  if ds.isEmpty then none else some (digitsVal ds, s.drop ds.length)

/-- Consume one expected byte. -/
def expectByte (b : Nat) : List Nat → Option (List Nat)
  | [] => none
  | c :: rest => if c == b then some rest else none

/-- Match one of a list of literal tokens at the start of the input,
returning its index and the rest. -/
def findAbbrev : List (List Nat) → List Nat → Option (Nat × List Nat)
  | [], _ => none
  | t :: ts, s =>
    if beginsWith t s then some (0, s.drop t.length)
    else (findAbbrev ts s).map (fun p => (p.1 + 1, p.2))

/-- Abbreviated English weekday names of the `%a` directive. -/
def weekdayAbbrevs : List (List Nat) :=
  [s2b "Mon", s2b "Tue", s2b "Wed", s2b "Thu", s2b "Fri", s2b "Sat", s2b "Sun"]

/-- Abbreviated English month names of the `%b` directive, in calendar
order, so the month number is the index plus one. -/
def monthAbbrevs : List (List Nat) :=
  [s2b "Jan", s2b "Feb", s2b "Mar", s2b "Apr", s2b "May", s2b "Jun",
   s2b "Jul", s2b "Aug", s2b "Sep", s2b "Oct", s2b "Nov", s2b "Dec"]

/-- A parsed UTC date and time. -/
structure ClamDateTime where
  year : Nat
  month : Nat
  day : Nat
  hour : Nat
  minute : Nat
  second : Nat
deriving DecidableEq, Repr

/-- Modelled from the spec: the external chrono call
`Utc.datetime_from_str(text, "%a %b %e %T %Y")` used by `Version::parse`
(the chrono crate is not part of this repository). Per the spec the field
parses against the fixed pattern abbreviated weekday, space, abbreviated
month, space, space-padded day, space, `H:M:S`, space, year, in UTC, and
the whole input must be consumed. -/
def parseClamDate (s : List Nat) : Option ClamDateTime :=
  match findAbbrev weekdayAbbrevs s with
  | none => none
  | some p0 =>
  match expectByte 32 p0.2 with
  | none => none
  | some s1 =>
  match findAbbrev monthAbbrevs s1 with
  | none => none
  | some pm =>
  match expectByte 32 pm.2 with
  | none => none
  | some s2 =>
  match readDigitsUpTo 2 (if s2.head? == some 32 then s2.tail else s2) with
  | none => none
  | some pd =>
  match expectByte 32 pd.2 with
  | none => none
  | some ph0 =>
  match readDigitsUpTo 2 ph0 with
  | none => none
  | some ph =>
  match expectByte 58 ph.2 with
  | none => none
  | some s4 =>
  match readDigitsUpTo 2 s4 with
  | none => none
  | some pmin =>
  match expectByte 58 pmin.2 with
  | none => none
  | some s5 =>
  match readDigitsUpTo 2 s5 with
  | none => none
  | some psec =>
  match expectByte 32 psec.2 with
  | none => none
  | some s6 =>
  match readDigitsUpTo 4 s6 with
  | none => none
  | some py =>
  if py.2.isEmpty then some (ClamDateTime.mk py.1 (pm.1 + 1) pd.1 ph.1 pmin.1 psec.1)
  else none

/-- Version metadata, from `response.rs` (`pub struct Version`). -/
structure Version where
  version_tag : List Nat
  build_number : Nat
  release_date : ClamDateTime
deriving DecidableEq, Repr

/-- Embedding of `Version::parse` (response.rs lines 102-130): remove every
trailing NUL, split on `/` (47), require exactly three fields
(`InvalidData` otherwise), parse field 1 as an unsigned 64-bit integer
(`IntParseError` on failure), parse field 2 as a date (`DateParseError` on
failure), and return field 0 verbatim as the tag. -/
def Version.parse (s : List Nat) : Except ClamError Version :=
  match splitOnByte 47 (dropTrailing 0 s) with
  | [p0, p1, p2] =>
    match parseU64 p1 with
    | none => Except.error ClamError.IntParseError
    | some n =>
      match parseClamDate p2 with
      | none => Except.error ClamError.DateParseError
      | some d => Except.ok ⟨p0, n, d⟩
  | _ => Except.error (ClamError.InvalidData s)

/-- Daemon statistics, from `response.rs` (`pub struct Stats`). -/
structure Stats where
  pools : Nat
  state : List Nat
  threads_live : Nat
  threads_idle : Nat
  threads_max : Nat
  threads_idle_timeout_secs : Nat
  queue : Nat
  mem_heap : List Nat
  mem_mmap : List Nat
  mem_used : List Nat
  mem_free : List Nat
  mem_releasable : List Nat
  pools_used : List Nat
  pools_total : List Nat
deriving DecidableEq, Repr

/-- Embedding of nom `take_until_and_consume!(pat)`: the text before the
first occurrence of `pat` together with the text after it, `none` when
`pat` does not occur (nom reports `Incomplete`, which `Stats::parse` treats
as failure). -/
def takeUntilConsume (pat : List Nat) : List Nat → Option (List Nat × List Nat)
  | [] => if pat.isEmpty then some ([], []) else none
  | c :: rest =>
    if beginsWith pat (c :: rest) then some ([], (c :: rest).drop pat.length)
    else (takeUntilConsume pat rest).map (fun pr => (c :: pr.1, pr.2))

/-- Embedding of nom `tag!(pat)`: consume a literal. -/
def consumeTag (pat : List Nat) (s : List Nat) : Option (List Nat) :=
  if beginsWith pat s then some (s.drop pat.length) else none

/-- Embedding of the nom grammar `parse_stats` (response.rs lines 159-197):
sequentially consume the literal anchors, converting each extracted slice
with `u64::from_str` where the field is numeric (`FromStr` for `String` is
the identity and never fails). Any missing anchor or failed conversion
fails the whole parse. -/
def parse_stats (s : List Nat) : Option Stats :=
  match consumeTag (s2b "POOLS: ") s with
  | none => none
  | some t0 =>
  match takeUntilConsume (s2b "\n\nSTATE: ") t0 with
  | none => none
  | some a1 =>
  match parseU64 a1.1 with
  | none => none
  | some pools =>
  match takeUntilConsume (s2b "\nTHREADS: live ") a1.2 with
  | none => none
  | some a2 =>
  match takeUntilConsume (s2b "  idle ") a2.2 with
  | none => none
  | some a3 =>
  match parseU64 a3.1 with
  | none => none
  | some threads_live =>
  match takeUntilConsume (s2b " max ") a3.2 with
  | none => none
  | some a4 =>
  match parseU64 a4.1 with
  | none => none
  | some threads_idle =>
  match takeUntilConsume (s2b " idle-timeout ") a4.2 with
  | none => none
  | some a5 =>
  match parseU64 a5.1 with
  | none => none
  | some threads_max =>
  match takeUntilConsume (s2b "\nQUEUE: ") a5.2 with
  | none => none
  | some a6 =>
  match parseU64 a6.1 with
  | none => none
  | some timeout_secs =>
  match takeUntilConsume (s2b " items\n") a6.2 with
  | none => none
  | some a7 =>
  match parseU64 a7.1 with
  | none => none
  | some queue =>
  match takeUntilConsume (s2b "heap ") a7.2 with
  | none => none
  | some a8 =>
  match takeUntilConsume (s2b " mmap ") a8.2 with
  | none => none
  | some a9 =>
  match takeUntilConsume (s2b " used ") a9.2 with
  | none => none
  | some a10 =>
  match takeUntilConsume (s2b " free ") a10.2 with
  | none => none
  | some a11 =>
  match takeUntilConsume (s2b " releasable ") a11.2 with
  | none => none
  | some a12 =>
  match takeUntilConsume (s2b " pools ") a12.2 with
  | none => none
  | some a13 =>
  match takeUntilConsume (s2b "pools_used ") a13.2 with
  | none => none
  | some a14 =>
  match takeUntilConsume (s2b " pools_total ") a14.2 with
  | none => none
  | some a15 =>
  match takeUntilConsume (s2b "\n") a15.2 with
  | none => none
  | some a16 =>
  some (Stats.mk pools a2.1 threads_live threads_idle threads_max timeout_secs queue
    a9.1 a10.1 a11.1 a12.1 a13.1 a15.1 a16.1)

/-- Embedding of `Stats::parse` (response.rs lines 150-157): run the nom
grammar, mapping any failure to `InvalidData` carrying the whole raw
response text. -/
def Stats.parse (s : List Nat) : Except ClamError Stats :=
  match parse_stats s with
  | some st => Except.ok st
  | none => Except.error (ClamError.InvalidData s)

/-- Upload loop of `scan_stream` (client.rs lines 82-95): the transcript of
bytes written by the iterations of the `while let` loop, together with the
terminal error, if any. `reads` is the list of byte chunks the successive
successful `reader.read(&mut buffer)` calls deposit at the start of the
4096-byte buffer (each of length at most 4096 by the `Read` contract), and
`buf` is the current buffer content; once `reads` is exhausted the reader
is at end of file and `read` returns 0. Each iteration guards the length
against `u32::MAX`, writes the 4-byte big-endian length prefix and then
writes the whole buffer (`&buffer`, all 4096 bytes, not just the bytes the
read deposited), breaking after a read shorter than the window. -/
def scanStreamLoop : List (List Nat) → List Nat → List Nat × Option ClamError
  | [], buf => (be32 0 ++ buf, none)
  | c :: rest, buf =>
    if 4294967295 < c.length then ([], some (ClamError.InvalidDataLength c.length))
    else
      let buf2 := c ++ buf.drop c.length
      let w := be32 c.length ++ buf2
      if c.length < 4096 then (w, none)
      else
        let p := scanStreamLoop rest buf2
        (w ++ p.1, p.2)

/-- Write transcript of `scan_stream` (client.rs lines 74-97) up to the
point where the client starts reading the response: the `zINSTREAM`
command, the loop transcript, and — when the loop did not error — the
terminating zero-length chunk frame. The buffer starts zeroed
(`[0; 4096]`). -/
def scanStreamRun (reads : List (List Nat)) : List Nat × Option ClamError :=
  match scanStreamLoop reads (List.replicate 4096 0) with
  | (ws, some e) => (s2b "zINSTREAM\x00" ++ ws, some e)
  | (ws, none) => (s2b "zINSTREAM\x00" ++ ws ++ [0, 0, 0, 0], none)

/-- Fuel-indexed helper for `chunksList`; the fuel is an upper bound on the
list length, so the middle case is never reached from `chunksList`. -/
def chunksAux : Nat → List Nat → List (List Nat)
  | _, [] => []
  | 0, l => [l]
  | fuel + 1, c :: rest => ((c :: rest).take 4096) :: chunksAux fuel ((c :: rest).drop 4096)

/-- Rust `slice::chunks(4096)` as used by `scan_bytes` (client.rs line 122):
consecutive pieces of 4096 bytes, the last piece possibly shorter, and no
piece at all for an empty buffer. -/
def chunksList (b : List Nat) : List (List Nat) := chunksAux b.length b

/-- Frame writes shared by `scan_bytes` (client.rs lines 123-127) and
`scan_chunks` (client.rs lines 149-153): for every chunk, a 4-byte
big-endian prefix holding the chunk length cast to `u32` — `len as u32`,
truncation modulo 2^32, with no length guard — followed by the chunk
bytes. -/
def framesFor : List (List Nat) → List Nat
  | [] => []
  | c :: rest => (be32 (c.length % 4294967296) ++ c) ++ framesFor rest

/-- Write transcript of `scan_chunks` (client.rs lines 145-154) up to the
response read: command, one frame per caller-supplied chunk, terminator. -/
def scanChunksRun (chunks : List (List Nat)) : List Nat :=
  s2b "zINSTREAM\x00" ++ framesFor chunks ++ [0, 0, 0, 0]

/-- Write transcript of `scan_bytes` (client.rs lines 118-128) up to the
response read: command, one frame per 4096-byte piece of the buffer,
terminator. -/
def scanBytesRun (b : List Nat) : List Nat :=
  s2b "zINSTREAM\x00" ++ framesFor (chunksList b) ++ [0, 0, 0, 0]

/-- Response handling shared verbatim by `scan_stream` (client.rs lines
99-112), `scan_bytes` (lines 130-143) and `scan_chunks` (lines 156-168):
parse the full response text, return the first verdict if there is one and
`InvalidData` carrying the raw response text otherwise. The outer `Option`
propagates the potential panic of `ScanResult::parse`. -/
def handleScanResponse (result : List Nat) : Option (Except ClamError ScanResult) :=
  match ScanResult.parse result with
  | none => none
  | some rs =>
    match rs.head? with
    | some r => some (Except.ok r)
    | none => some (Except.error (ClamError.InvalidData result))

/-- Statistics block of the spec scenario with the daemon layout used by the
repository test data: two spaces between `live 1` and `idle`. -/
def statsBlockTwoSpace : List Nat :=
  s2b "POOLS: 1\n\nSTATE: VALID PRIMARY\nTHREADS: live 1  idle 0 max 12 idle-timeout 30\nQUEUE: 0 items\n\tSTATS 0.000394\n\nMEMSTATS: heap 9.082M mmap 0.000M used 6.902M free 2.184M releasable 0.129M pools 1 pools_used 565.979M pools_total 565.999M\nEND\x00"

/-- Statistics block exactly as written in the spec scenario: a single space
between each number of the THREADS line and the next label. -/
def statsBlockOneSpace : List Nat :=
  s2b "POOLS: 1\n\nSTATE: VALID PRIMARY\nTHREADS: live 1 idle 0 max 12 idle-timeout 30\nQUEUE: 0 items\n\tSTATS 0.000394\n\nMEMSTATS: heap 9.082M mmap 0.000M used 6.902M free 2.184M releasable 0.129M pools 1 pools_used 565.979M pools_total 565.999M\nEND\x00"

/-- The two-space statistics block with the whole QUEUE line removed, so the
anchor `\nQUEUE: ` never occurs. -/
def statsBlockNoQueue : List Nat :=
  s2b "POOLS: 1\n\nSTATE: VALID PRIMARY\nTHREADS: live 1  idle 0 max 12 idle-timeout 30\n\tSTATS 0.000394\n\nMEMSTATS: heap 9.082M mmap 0.000M used 6.902M free 2.184M releasable 0.129M pools 1 pools_used 565.979M pools_total 565.999M\nEND\x00"

/-- The two-space statistics block with the pool count replaced by a
non-numeric field. -/
def statsBlockBadPools : List Nat :=
  s2b "POOLS: x\n\nSTATE: VALID PRIMARY\nTHREADS: live 1  idle 0 max 12 idle-timeout 30\nQUEUE: 0 items\n\tSTATS 0.000394\n\nMEMSTATS: heap 9.082M mmap 0.000M used 6.902M free 2.184M releasable 0.129M pools 1 pools_used 565.979M pools_total 565.999M\nEND\x00"

theorem beginsWith_mem (p : Nat) (ps s : List Nat) (h : beginsWith (p :: ps) s = true) :
    p ∈ s := by
  cases s with
  | nil => simp [beginsWith] at h
  | cons c cs =>
    rw [beginsWith, Bool.and_eq_true, beq_iff_eq] at h
    rw [h.1]
    exact List.mem_cons_self c cs

theorem containsSub_mem (p : Nat) (ps : List Nat) :
    ∀ s : List Nat, containsSub (p :: ps) s = true → p ∈ s := by
  intro s
  induction s with
  | nil => intro h; simp [containsSub, beginsWith] at h
  | cons c cs ih =>
    intro h
    rw [containsSub, Bool.or_eq_true] at h
    rcases h with h | h
    · exact beginsWith_mem p ps _ h
    · exact List.mem_cons_of_mem c (ih h)

theorem splitWsAux_acc_ne : ∀ s acc : List Nat, acc.isEmpty = false → splitWsAux s acc ≠ [] := by
  intro s
  induction s with
  | nil => intro acc h; simp [splitWsAux, h]
  | cons a t ih =>
    intro acc h
    rw [splitWsAux]
    by_cases ha : isWs a
    · rw [if_pos ha, if_neg (by simp [h])]
      simp
    · rw [if_neg ha]
      exact ih (a :: acc) rfl

theorem splitWsAux_ne_nil :
    ∀ s acc : List Nat, ∀ c : Nat, c ∈ s → isWs c = false → splitWsAux s acc ≠ [] := by
  intro s
  induction s with
  | nil => intro acc c hc _; simp at hc
  | cons a t ih =>
    intro acc c hc hw
    rw [splitWsAux]
    by_cases ha : isWs a
    · rw [if_pos ha]
      have hct : c ∈ t := by
        rcases List.mem_cons.mp hc with h | h
        · subst h; exact absurd ha (by simp [hw])
        · exact h
      split_ifs
      · exact ih [] c hct hw
      · simp
    · rw [if_neg ha]
      rcases List.mem_cons.mp hc with h | h
      · exact splitWsAux_acc_ne t (a :: acc) rfl
      · exact ih (a :: acc) c h hw

theorem classify_total (s : List Nat) : ∃ r, classify s = some r := by
  unfold classify
  split_ifs with h1 h2
  · exact ⟨_, rfl⟩
  · cases hsp : splitWhitespace s with
    | nil =>
      exfalso
      have hFb : s2b "FOUND" = 70 :: [79, 85, 78, 68] := rfl
      rw [hFb] at h2
      have hmem : 70 ∈ s := containsSub_mem 70 _ s h2
      rw [splitWhitespace] at hsp
      exact splitWsAux_ne_nil s [] 70 hmem (by decide) hsp
    | cons p rest => exact ⟨_, rfl⟩
  · exact ⟨_, rfl⟩

theorem classify_error_eq (s e : List Nat) (h : classify s = some (ScanResult.Error e)) :
    e = s := by
  unfold classify at h
  split_ifs at h with h1 h2
  · simp at h
  · cases hsp : splitWhitespace s with
    | nil => rw [hsp] at h; simp at h
    | cons p rest => rw [hsp] at h; simp at h
  · rw [Option.some.injEq] at h
    exact (ScanResult.Error.inj h).symm

theorem classifyAll_total (segs : List (List Nat)) :
    ∃ rs, classifyAll segs = some rs ∧
      List.Forall₂ (fun seg r => classify seg = some r) segs rs := by
  induction segs with
  | nil => exact ⟨[], rfl, List.Forall₂.nil⟩
  | cons seg rest ih =>
    obtain ⟨r, hr⟩ := classify_total seg
    obtain ⟨rs, hrs, hF⟩ := ih
    exact ⟨r :: rs, by rw [classifyAll, hr, hrs], List.Forall₂.cons hr hF⟩

theorem forall₂_exists_left {α β : Type} {R : α → β → Prop} :
    ∀ {l1 : List α} {l2 : List β}, List.Forall₂ R l1 l2 → ∀ b ∈ l2, ∃ a ∈ l1, R a b := by
  intro l1 l2 h
  induction h with
  | nil => intro b hb; simp at hb
  | cons h1 _ ih =>
    intro b hb
    rcases List.mem_cons.mp hb with h | h
    · subst h; exact ⟨_, List.mem_cons_self _ _, h1⟩
    · obtain ⟨a, ha, hr⟩ := ih b h
      exact ⟨a, List.mem_cons_of_mem _ ha, hr⟩

/-- C5: for every input string, `Signature::parse` succeeds (it is a total
function) and the `raw` field of its result is exactly the input. -/
theorem c5_raw_identity (s : List Nat) : (Signature.parse s).raw = s := rfl

theorem breakAt_eq_none (b : Nat) : ∀ s : List Nat, b ∉ s → breakAt b s = none := by
  intro s
  induction s with
  | nil => intro _; rfl
  | cons c rest ih =>
    intro h
    simp only [List.mem_cons, not_or] at h
    have hne : ¬(c == b) = true := by
      simp only [beq_iff_eq]
      exact fun hh => h.1 hh.symm
    rw [breakAt, if_neg hne, ih h.2]
    rfl

theorem splitNOn_head_exists (n b : Nat) (s : List Nat) :
    ∃ h t, splitNOn (n + 2) b s = h :: t := by
  cases hbr : breakAt b s with
  | none => exact ⟨s, [], by rw [splitNOn, hbr]⟩
  | some pr => exact ⟨pr.1, _, by rw [splitNOn, hbr]⟩

theorem splitN2_head_exists (b : Nat) (s : List Nat) : ∃ h t, splitNOn 2 b s = h :: t :=
  splitNOn_head_exists 0 b s

theorem splitN3_head_exists (b : Nat) (s : List Nat) : ∃ h t, splitNOn 3 b s = h :: t :=
  splitNOn_head_exists 1 b s

theorem splitNOn_not_mem (n b : Nat) (s : List Nat) (h : b ∉ s) :
    splitNOn (n + 2) b s = [s] := by
  rw [splitNOn, breakAt_eq_none b s h]

theorem splitN2_not_mem (b : Nat) (s : List Nat) (h : b ∉ s) : splitNOn 2 b s = [s] :=
  splitNOn_not_mem 0 b s h

theorem splitN3_not_mem (b : Nat) (s : List Nat) (h : b ∉ s) : splitNOn 3 b s = [s] :=
  splitNOn_not_mem 1 b s h

/-- C3 (amended): `Signature::parse` never leaves all five optional fields
absent; the `platform` field is always present, and for an input containing
neither `-` (45) nor `.` (46) — the grammar-mismatch shape the claim
describes — the whole input becomes the `platform` while the other four
fields are absent. -/
theorem c3_platform_always_present (s : List Nat) :
    (Signature.parse s).platform ≠ none ∧
    (45 ∉ s → 46 ∉ s →
      Signature.parse s = Signature.mk (some s) none none none none s) := by
  constructor
  · obtain ⟨h1, t1, e1⟩ := splitN2_head_exists 45 s
    obtain ⟨h2, t2, e2⟩ := splitN3_head_exists 46 h1
    simp [Signature.parse, e1, e2]
  · intro h45 h46
    simp [Signature.parse, splitN2_not_mem 45 s h45, splitN3_not_mem 46 s h46]

/-- C3 (counterexample): on the input `abc` — which contains neither `.` nor
`-`, the very example the claim gives — the five optional fields of
`Signature::parse` are not all absent: `platform` holds the whole input. -/
theorem c3_counterexample :
    ¬((Signature.parse (s2b "abc")).platform = none ∧
      (Signature.parse (s2b "abc")).category = none ∧
      (Signature.parse (s2b "abc")).virus = none ∧
      (Signature.parse (s2b "abc")).signum = none ∧
      (Signature.parse (s2b "abc")).sigversion = none) := by
  decide

theorem c3_witness :
    Signature.parse (s2b "abc") =
      Signature.mk (some (s2b "abc")) none none none none (s2b "abc") :=
  (c3_platform_always_present (s2b "abc")).2 (by decide) (by decide)

/-- C6: `ScanResult::parse` never fails (in particular the `unwrap` inside
it never panics), it produces exactly one classified result per non-empty
NUL-delimited segment in original order, and no `Error` verdict carrying
the empty string is ever produced. -/
theorem c6_parse_total_no_empty (s : List Nat) :
    ScanResult.parse s ≠ none ∧
    ∀ rs, ScanResult.parse s = some rs →
      List.Forall₂ (fun seg r => classify seg = some r) (nonEmptySegments s) rs ∧
      ScanResult.Error [] ∉ rs := by
  obtain ⟨rs0, hall, hF⟩ := classifyAll_total (nonEmptySegments s)
  have hp : ScanResult.parse s = some rs0 := hall
  constructor
  · rw [hp]; simp
  · intro rs hrs
    rw [hp, Option.some.injEq] at hrs
    subst hrs
    refine ⟨hF, ?_⟩
    intro hmem
    obtain ⟨seg, hseg, hcl⟩ := forall₂_exists_left hF _ hmem
    have heq : [] = seg := classify_error_eq seg [] hcl
    simp only [nonEmptySegments] at hseg
    have hne := (List.mem_filter.mp hseg).2
    rw [← heq] at hne
    simp at hne

theorem c6_witness :
    ScanResult.parse (s2b "/tmp/file: OK\x00") ≠ none :=
  (c6_parse_total_no_empty (s2b "/tmp/file: OK\x00")).1

/-- C10: in the segment classifier of `ScanResult::parse` the `OK` suffix
rule takes precedence: every segment ending in `OK` is classified `Clean`
even when it contains `FOUND`, and a `Found` verdict is produced only for
segments that do not end in `OK` but do contain `FOUND`. -/
theorem c10_ok_beats_found (seg : List Nat) :
    (endsWith (s2b "OK") seg = true → classify seg = some ScanResult.Ok) ∧
    (∀ path sig, classify seg = some (ScanResult.Found path sig) →
      endsWith (s2b "OK") seg = false ∧ containsSub (s2b "FOUND") seg = true) := by
  constructor
  · intro h
    unfold classify
    rw [if_pos h]
  · intro path sig h
    unfold classify at h
    split_ifs at h with h1 h2
    · simp at h
    · exact ⟨by simpa using h1, h2⟩
    · simp at h

theorem c10_witness : classify (s2b "/f: Eicar FOUND OK") = some ScanResult.Ok :=
  (c10_ok_beats_found (s2b "/f: Eicar FOUND OK")).1 (by decide)

/-- C9: in the response handling shared by `scan_stream`, `scan_bytes` and
`scan_chunks`, a parsed result with zero verdicts yields the
`MalformedResponse` error (`InvalidData`) carrying the raw response text,
and a parsed result with one or more verdicts yields exactly the first
verdict. -/
theorem c9_first_verdict (result : List Nat) :
    (ScanResult.parse result = some [] →
      handleScanResponse result = some (Except.error (ClamError.InvalidData result))) ∧
    ∀ r rest, ScanResult.parse result = some (r :: rest) →
      handleScanResponse result = some (Except.ok r) := by
  constructor
  · intro h
    simp [handleScanResponse, h]
  · intro r rest h
    simp [handleScanResponse, h]

theorem c9_witness :
    handleScanResponse (s2b "stream: Eicar FOUND\x00") =
      some (Except.ok (ScanResult.Found (s2b "stream")
        (Signature.parse (s2b "Eicar")))) := by
  have h := (c9_first_verdict (s2b "stream: Eicar FOUND\x00")).2
    (ScanResult.Found (s2b "stream") (Signature.parse (s2b "Eicar"))) [] (by decide)
  exact h

/-- C7: `Stats::parse` is atomic — whenever the anchor-scan grammar fails
(missing anchor or failed numeric conversion) the whole parse fails with
`MalformedResponse` (`InvalidData`) carrying the raw text and no Stats
record is produced, a full 14-field record is returned exactly when the
grammar succeeds, and concretely a block with a missing `QUEUE` anchor and
a block with a non-numeric pool count both fail totally. -/
theorem c7_stats_atomic (s : List Nat) :
    (parse_stats s = none → Stats.parse s = Except.error (ClamError.InvalidData s)) ∧
    (∀ st, parse_stats s = some st → Stats.parse s = Except.ok st) ∧
    Stats.parse statsBlockNoQueue = Except.error (ClamError.InvalidData statsBlockNoQueue) ∧
    Stats.parse statsBlockBadPools = Except.error (ClamError.InvalidData statsBlockBadPools) := by
  refine ⟨?_, ?_, by decide, by decide⟩
  · intro h
    simp [Stats.parse, h]
  · intro st h
    simp [Stats.parse, h]

theorem c7_witness : Stats.parse [] = Except.error (ClamError.InvalidData []) :=
  (c7_stats_atomic []).1 (by decide)

/-- C4 (counterexample): on the statistics block exactly as written in the
spec scenario — a single space between each THREADS number and the next
label — `Stats::parse` fails with `MalformedResponse` instead of
succeeding, because the grammar anchor between the live and idle counts is
the two-space literal `"  idle "`. -/
theorem c4_counterexample :
    Stats.parse statsBlockOneSpace =
      Except.error (ClamError.InvalidData statsBlockOneSpace) := by
  decide

/-- C4 (amended): on the statistics block with the daemon layout (two
spaces between `live 1` and `idle`, as in the repository test data),
`Stats::parse` succeeds with exactly the 14 field values of the spec
scenario. -/
theorem c4_stats_scenario :
    Stats.parse statsBlockTwoSpace =
      Except.ok (Stats.mk 1 (s2b "VALID PRIMARY") 1 0 12 30 0 (s2b "9.082M")
        (s2b "0.000M") (s2b "6.902M") (s2b "2.184M") (s2b "0.129M")
        (s2b "565.979M") (s2b "565.999M")) := by
  decide

/-- C8 (amended): `Version::parse` strips every trailing NUL (not only one)
and splits on `/`; it fails with `MalformedResponse` when the result is not
exactly 3 fields, with `NumericParse` when field 1 is not an unsigned
integer, with `DateParse` when field 2 does not match the fixed UTC
date-time pattern, and otherwise succeeds with field 0 as the verbatim tag;
on the spec scenario input it returns tag `ClamAV 0.100.0`, build 24802 and
date 2018-08-01T08:43:37Z. -/
theorem c8_version_amended (s : List Nat) :
    ((splitOnByte 47 (dropTrailing 0 s)).length ≠ 3 →
      Version.parse s = Except.error (ClamError.InvalidData s)) ∧
    (∀ p0 p1 p2, splitOnByte 47 (dropTrailing 0 s) = [p0, p1, p2] →
      (parseU64 p1 = none → Version.parse s = Except.error ClamError.IntParseError) ∧
      (∀ n, parseU64 p1 = some n → parseClamDate p2 = none →
        Version.parse s = Except.error ClamError.DateParseError) ∧
      (∀ n d, parseU64 p1 = some n → parseClamDate p2 = some d →
        Version.parse s = Except.ok (Version.mk p0 n d))) ∧
    Version.parse (s2b "ClamAV 0.100.0/24802/Wed Aug  1 08:43:37 2018\x00") =
      Except.ok (Version.mk (s2b "ClamAV 0.100.0") 24802
        (ClamDateTime.mk 2018 8 1 8 43 37)) := by
  refine ⟨?_, ?_, by decide⟩
  · intro hlen
    rcases hsp : splitOnByte 47 (dropTrailing 0 s) with _ | ⟨p0, _ | ⟨p1, _ | ⟨p2, _ | ⟨p3, t⟩⟩⟩⟩
    · simp [Version.parse, hsp]
    · simp [Version.parse, hsp]
    · simp [Version.parse, hsp]
    · exact absurd (by rw [hsp]; rfl) hlen
    · simp [Version.parse, hsp]
  · intro p0 p1 p2 hsp
    refine ⟨?_, ?_, ?_⟩
    · intro hU
      simp [Version.parse, hsp, hU]
    · intro n hU hD
      simp [Version.parse, hsp, hU, hD]
    · intro n d hU hD
      simp [Version.parse, hsp, hU, hD]

theorem c8_witness :
    Version.parse (s2b "just one field") =
      Except.error (ClamError.InvalidData (s2b "just one field")) :=
  (c8_version_amended (s2b "just one field")).1 (by decide)

/-- C8 (counterexample): on an input carrying two trailing NULs the code
succeeds, whereas under the claim — strip a single trailing NUL — the date
field would keep a NUL and the parse would have to fail with `DateParse`;
`trim_end_matches` removes every trailing NUL. -/
theorem c8_counterexample :
    Version.parse (s2b "ClamAV 0.100.0/24802/Wed Aug  1 08:43:37 2018\x00\x00") =
      Except.ok (Version.mk (s2b "ClamAV 0.100.0") 24802
        (ClamDateTime.mk 2018 8 1 8 43 37)) := by
  decide

theorem chunksAux_len : ∀ (fuel : Nat) (l : List Nat), l.length ≤ fuel →
    ∀ c ∈ chunksAux fuel l, c.length ≤ 4096 := by
  intro fuel
  induction fuel with
  | zero =>
    intro l hl c hc
    cases l with
    | nil => simp [chunksAux] at hc
    | cons a t => simp at hl
  | succ n ih =>
    intro l hl c hc
    cases l with
    | nil => simp [chunksAux] at hc
    | cons a t =>
      rw [chunksAux] at hc
      rcases List.mem_cons.mp hc with h | h
      · subst h; simp [List.length_take]
      · simp only [List.length_cons] at hl
        exact ih _ (by simp [List.length_drop]; omega) c h

/-- C2 (amended): only the pull-based `scan_stream` guards chunk lengths —
a read longer than `u32::MAX` makes its loop fail with `OversizedChunk`
(`InvalidDataLength`) before writing any byte of that chunk; `scan_bytes`
splits its buffer into pieces of at most 4096 bytes, so an oversized chunk
cannot arise there; and `scan_chunks` performs no check at all — it frames
every caller-supplied chunk with a length prefix equal to the chunk length
reduced modulo 2^32 (`len as u32`) and writes the chunk bytes. -/
theorem c2_oversize_amended :
    (∀ c rest buf, 4294967295 < c.length →
      scanStreamLoop (c :: rest) buf = ([], some (ClamError.InvalidDataLength c.length))) ∧
    (∀ b, ∀ c ∈ chunksList b, c.length ≤ 4096) ∧
    (∀ c rest, framesFor (c :: rest) =
      (be32 (c.length % 4294967296) ++ c) ++ framesFor rest) := by
  refine ⟨?_, ?_, ?_⟩
  · intro c rest buf h
    rw [scanStreamLoop, if_pos h]
  · intro b c hc
    exact chunksAux_len b.length b (le_refl _) c hc
  · intro c rest
    rw [framesFor]

theorem c2_witness :
    scanStreamLoop [List.replicate 4294967297 (9 : Nat)] (List.replicate 4096 0) =
      ([], some (ClamError.InvalidDataLength 4294967297)) := by
  have h := c2_oversize_amended.1 (List.replicate 4294967297 9) [] (List.replicate 4096 0)
    (by rw [List.length_replicate]; decide)
  rw [List.length_replicate] at h
  exact h

/-- C2 (counterexample): `scan_chunks` does not reject an oversized chunk —
for a single chunk of 4294967299 bytes (which exceeds `u32::MAX`) it
writes a frame whose length prefix is the truncated value 3 instead of
failing with `OversizedChunk` before writing. -/
theorem c2_counterexample :
    4294967295 < (List.replicate 4294967299 (55 : Nat)).length ∧
    (framesFor [List.replicate 4294967299 (55 : Nat)]).take 4 = [0, 0, 0, 3] := by
  have hlen : (List.replicate 4294967299 (55 : Nat)).length = 4294967299 :=
    List.length_replicate 4294967299 55
  constructor
  · rw [hlen]; decide
  · rw [framesFor, framesFor, List.append_nil, hlen]
    have hmod : (4294967299 : Nat) % 4294967296 = 3 := by decide
    rw [hmod]
    have hbe : be32 3 = [0, 0, 0, 3] := rfl
    rw [hbe]
    rw [show (4 : Nat) = ([0, 0, 0, 3] : List Nat).length from rfl, List.take_left]

theorem scanStreamLoop_single_full (c buf : List Nat) (hc : c.length = 4096) :
    scanStreamLoop [c] buf =
      ((be32 4096 ++ (c ++ buf.drop 4096)) ++ (be32 0 ++ (c ++ buf.drop 4096)), none) := by
  rw [scanStreamLoop]
  rw [hc]
  rw [if_neg (by norm_num), if_neg (by norm_num)]
  rw [scanStreamLoop]

/-- C1 (code evaluation): for a pull-based byte source yielding exactly one
full 4096-byte window (bytes 7) and then end of file, `scan_stream` does
not send the two claimed frames. Because the loop writes the entire
`&buffer` after every prefix, the EOF read of 0 bytes emits a zero-length
prefix followed by the 4096 stale buffer bytes, and the final terminator
follows: the transcript is command, prefix 4096, the 4096 data bytes,
prefix 0, the same 4096 bytes again, and the terminator — 8214 bytes
instead of the claimed 4114. -/
theorem c1_whole_buffer_written :
    scanStreamRun [List.replicate 4096 7] =
      (s2b "zINSTREAM\x00" ++ (be32 4096 ++ (List.replicate 4096 7 ++ (be32 0 ++
        (List.replicate 4096 7 ++ [0, 0, 0, 0])))), none) ∧
    scanStreamRun [List.replicate 4096 7] ≠
      (s2b "zINSTREAM\x00" ++ (be32 4096 ++ (List.replicate 4096 7 ++ [0, 0, 0, 0])), none) := by
  have hdrop : (List.replicate 4096 (0 : Nat)).drop 4096 = [] :=
    List.drop_eq_nil_of_le (le_of_eq (List.length_replicate 4096 0))
  have hloop := scanStreamLoop_single_full (List.replicate 4096 7) (List.replicate 4096 0)
    (List.length_replicate 4096 7)
  rw [hdrop, List.append_nil] at hloop
  have h1 : scanStreamRun [List.replicate 4096 7] =
      (s2b "zINSTREAM\x00" ++ (be32 4096 ++ (List.replicate 4096 7 ++ (be32 0 ++
        (List.replicate 4096 7 ++ [0, 0, 0, 0])))), none) := by
    rw [scanStreamRun]
    simp only [hloop]
    simp only [List.append_assoc]
  refine ⟨h1, ?_⟩
  have hten : (s2b "zINSTREAM\x00").length = 10 := by decide
  have hfour : ∀ n : Nat, (be32 n).length = 4 := fun n => rfl
  intro h
  rw [h1] at h
  have hlen : (s2b "zINSTREAM\x00" ++ (be32 4096 ++ (List.replicate 4096 7 ++ (be32 0 ++
      (List.replicate 4096 7 ++ [0, 0, 0, 0]))))).length =
      (s2b "zINSTREAM\x00" ++ (be32 4096 ++ (List.replicate 4096 7 ++
      [0, 0, 0, 0]))).length := congrArg (fun p => p.1.length) h
  simp only [List.length_append, hten, hfour, List.length_replicate, List.length_cons,
    List.length_nil] at hlen
  omega
